import Mathlib

/-!
Shallow embedding of the OpenEHallPass pass-lifecycle core
(src/app/models/core.py and src/app/routes/passes.py).

Conventions:
* timestamps are integer seconds (UTC); Python timedelta(minutes=m) becomes 60 * m;
* SQLAlchemy rows become structures, tables become lists;
* route handlers become pure functions returning Except: an error value means the
  request aborted (flash + redirect, unhandled exception, or IntegrityError) and
  the transaction was not committed, so the store is unchanged;
* the SQLite CHECK constraint ck_pass_time_order is evaluated on every row the
  transaction writes; a violation aborts the commit.
-/

namespace HallPass

/-- Pass lifecycle states, from PassState in src/app/models/core.py. -/
inductive PassState where
  | Pending
  | Active
  | Expired
  | Cancelled
  | Denied
  | Archived
deriving DecidableEq

/-- A row of the passes table (model Pass in core.py). -/
structure PassRec where
  id : Nat
  student_id : Nat
  destination_id : Nat
  issued_at : Option Int
  expires_at : Option Int
  state : PassState
deriving DecidableEq

/-- A row of the destinations table (model Destination in core.py). -/
structure DestRec where
  id : Nat
  default_minutes : Int
  max_concurrent : Int
deriving DecidableEq

/-- A row of the pass_assignments table (model PassAssignment in core.py). -/
structure AssignRec where
  pass_id : Nat
  teacher_id : Nat
deriving DecidableEq

/-- A row of the overrides table (model Override in core.py). -/
structure OverrideRec where
  pass_id : Nat
  performed_by_id : Nat
  previous_expires_at : Int
  new_expires_at : Int
  reason : Option String
deriving DecidableEq

/-- The store: the tables the lifecycle routes read and write. -/
structure Db where
  passes : List PassRec
  assignments : List AssignRec
  overrides : List OverrideRec
  destinations : List DestRec
deriving DecidableEq

/-- db.session.get(Pass, pass_id). -/
def getPass (db : Db) (pid : Nat) : Option PassRec :=
  db.passes.find? (fun p => p.id == pid)

/-- db.session.get(Destination, dest_id). -/
def getDest (db : Db) (did : Nat) : Option DestRec :=
  db.destinations.find? (fun d => d.id == did)

/-- Writing back one mutated ORM row: the row with the same id is replaced. -/
def setPass (db : Db) (q : PassRec) : Db :=
  { db with passes := db.passes.map (fun r => if r.id == q.id then q else r) }

/-- CHECK constraint ck_pass_time_order (core.py):
(issued_at IS NULL AND expires_at IS NULL) OR (expires_at > issued_at).
Under SQL three-valued logic a comparison with NULL yields NULL and a NULL
check passes, so the mixed null cases do not violate the constraint. -/
def ck_pass_time_order (p : PassRec) : Bool :=
  match p.issued_at, p.expires_at with
  | none, none => true
  | some i, some e => decide (i < e)
  | _, _ => true

/-- Pass.remaining_seconds (core.py): 0 unless the pass is Active with a set
expires_at; otherwise max(0, expires_at - now) in whole seconds. -/
def remaining_seconds (p : PassRec) (now : Int) : Int :=
  match p.state, p.expires_at with
  | PassState.Active, some e => max 0 (e - now)
  | _, _ => 0

/-- Pass.mark_expired_if_needed (core.py): Active with utcnow() >= expires_at
becomes Expired. -/
def mark_expired_if_needed (p : PassRec) (now : Int) : PassRec :=
  match p.state, p.expires_at with
  | PassState.Active, some e =>
      if e ≤ now then { p with state := PassState.Expired } else p
  | _, _ => p

/-- The per-row selection of the auto-expire sweep in the index route
(passes.py): state == ACTIVE, expires_at != None, expires_at <= now. -/
def sweepSelected (now : Int) (p : PassRec) : Bool :=
  p.state == PassState.Active &&
    (match p.expires_at with
     | some e => decide (e ≤ now)
     | none => false)

/-- Effect of the sweep on one row: a selected row is set to EXPIRED. -/
def sweepPass (now : Int) (p : PassRec) : PassRec :=
  if sweepSelected now p then { p with state := PassState.Expired } else p

/-- The auto-expire sweep at the top of the index route (passes.py):
every Active pass whose deadline has elapsed is transitioned to Expired. -/
def sweep (db : Db) (now : Int) : Db :=
  { db with passes := db.passes.map (sweepPass now) }

/-- How a route run can abort. In every abort case the transaction is not
committed, so the store the next request sees is unchanged. -/
inductive OpError where
  | NotFoundOrState
  | NotFound
  | InvalidTransition
  | NotAuthorized
  | ValidationError
  | WindowViolation
  | ConstraintViolation
  | TypeErrorNoneExpiry
deriving DecidableEq

/-- The pass-creation tail of the request_pass POST handler (passes.py): an
unknown destination aborts with a flash; otherwise one Pending pass with
issued_at and expires_at unset is inserted together with one PassAssignment
to the resolved teacher. new_id stands for the autoincrement primary key. -/
def create_pass (db : Db) (new_id student_id dest_id teacher_id : Nat) :
    Except OpError Db :=
  match getDest db dest_id with
  | none => .error .ValidationError
  | some d =>
      .ok { db with
            passes := db.passes ++
              [⟨new_id, student_id, d.id, none, none, PassState.Pending⟩],
            assignments := db.assignments ++ [⟨new_id, teacher_id⟩] }

/-- dest.default_minutes if dest else 5 (approve and approve_all routes). -/
def approveMinutes (db : Db) (p : PassRec) : Int :=
  match getDest db p.destination_id with
  | some d => d.default_minutes
  | none => 5

/-- The write the approve route performs on the pass row: a Pending pass is
stamped issued_at = now, expires_at = now + destination default minutes and
set Active; any other row is left as it is. -/
def approvedPass (db : Db) (p : PassRec) (now : Int) : PassRec :=
  if p.state = PassState.Pending then
    { p with issued_at := some now,
             expires_at := some (now + 60 * approveMinutes db p),
             state := PassState.Active }
  else p

/-- Lines 489-492 of passes.py: insert the approver as a PassAssignment unless
the (pass, teacher) pair already exists. -/
def addAssignIfMissing (db : Db) (pid tid : Nat) : Db :=
  if (db.assignments.find? (fun a => a.pass_id == pid && a.teacher_id == tid)).isSome
  then db
  else { db with assignments := db.assignments ++ [⟨pid, tid⟩] }

/-- The approve route (passes.py). window_block abstracts lines 438-478: it is
true exactly when enforce_period_time_window is on, a context period was
found, that period is out of window and allow_teacher_approval_outside_period
is off; the request then aborts before any write. A missing pass or one that
is neither Pending nor Active aborts. The written row must satisfy
ck_pass_time_order or the commit raises and nothing is applied. -/
def approve (db : Db) (window_block : Bool) (pass_id approver : Nat)
    (now : Int) : Except OpError Db :=
  match getPass db pass_id with
  | none => .error .NotFoundOrState
  | some p =>
      if p.state ≠ PassState.Pending ∧ p.state ≠ PassState.Active then
        .error .NotFoundOrState
      else if window_block then .error .WindowViolation
      else if approvedPass db p now ≠ p ∧
          ck_pass_time_order (approvedPass db p now) = false then
        .error .ConstraintViolation
      else
        .ok (addAssignIfMissing (setPass db (approvedPass db p now)) p.id approver)

/-- The deny route (passes.py): only a Pending pass can be denied; the written
row still passes through the CHECK constraint at commit. -/
def deny (db : Db) (pass_id : Nat) : Except OpError Db :=
  match getPass db pass_id with
  | none => .error .NotFound
  | some p =>
      if p.state ≠ PassState.Pending then .error .InvalidTransition
      else if ck_pass_time_order { p with state := PassState.Denied } then
        .ok (setPass db { p with state := PassState.Denied })
      else .error .ConstraintViolation

/-- The cancel route (passes.py). actor_is_staff abstracts the Teacher/Admin
role check; a student may cancel only a pass they requested. The four
terminal states abort; otherwise the pass becomes Cancelled. -/
def cancel (db : Db) (pass_id : Nat) (actor_is_staff : Bool) (actor_id : Nat) :
    Except OpError Db :=
  match getPass db pass_id with
  | none => .error .NotFound
  | some p =>
      if ¬ (actor_is_staff = true ∨ p.student_id = actor_id) then
        .error .NotAuthorized
      else if p.state = PassState.Cancelled ∨ p.state = PassState.Expired ∨
          p.state = PassState.Archived ∨ p.state = PassState.Denied then
        .error .InvalidTransition
      else if ck_pass_time_order { p with state := PassState.Cancelled } then
        .ok (setPass db { p with state := PassState.Cancelled })
      else .error .ConstraintViolation

/-- The single-pass override route (passes.py), the timer extension. The
source performs no state check and no check on add_minutes: it reads
add_minutes from the form (default 0) and unconditionally computes
expires_at + timedelta(minutes=add_minutes). When expires_at is NULL that
addition raises TypeError and the commit is never reached; otherwise the new
deadline is written and one Override row is appended, and the commit enforces
ck_pass_time_order on the written pass row. -/
def override (db : Db) (pass_id performer : Nat) (add_minutes : Int)
    (reason : Option String) : Except OpError Db :=
  match getPass db pass_id with
  | none => .error .NotFound
  | some p =>
      match p.expires_at with
      | none => .error .TypeErrorNoneExpiry
      | some e =>
          if ck_pass_time_order { p with expires_at := some (e + 60 * add_minutes) } then
            .ok { setPass db { p with expires_at := some (e + 60 * add_minutes) } with
                  overrides := db.overrides ++
                    [⟨p.id, performer, e, e + 60 * add_minutes, reason⟩] }
          else .error .ConstraintViolation

/-- The row selection of the batch override_selected route: id among the
posted ids, state Active, and, when the actor is a teacher rather than an
admin, joined to a PassAssignment of that teacher. -/
def ovSelected (db : Db) (ids : List Nat) (performer : Nat)
    (actor_is_teacher : Bool) (p : PassRec) : Bool :=
  decide (p.id ∈ ids) && (p.state == PassState.Active) &&
    (!actor_is_teacher ||
      db.assignments.any (fun a => a.pass_id == p.id && a.teacher_id == performer))

/-- A selected row is actually written only when expires_at is set; the body
skips NULL deadlines with continue. -/
def ovTouched (db : Db) (ids : List Nat) (performer : Nat)
    (actor_is_teacher : Bool) (p : PassRec) : Bool :=
  ovSelected db ids performer actor_is_teacher p && p.expires_at.isSome

/-- The deadline rewrite of one override: expires_at += add_minutes. -/
def ovExtend (add_minutes : Int) (p : PassRec) : PassRec :=
  { p with expires_at := p.expires_at.map (fun e => e + 60 * add_minutes) }

/-- The batch override_selected route (passes.py). An empty selection or
add_minutes <= 0 aborts with a flash and no write. Otherwise every touched
row is extended by add_minutes and gets one Override row, in table order; the
commit enforces ck_pass_time_order on every written row, and a violation
rolls the whole batch back. -/
def my_period_override_selected (db : Db) (ids : List Nat) (performer : Nat)
    (actor_is_teacher : Bool) (add_minutes : Int) (reason : Option String) :
    Except OpError Db :=
  if ids = [] ∨ add_minutes ≤ 0 then .error .ValidationError
  else if db.passes.all (fun p =>
      !ovTouched db ids performer actor_is_teacher p ||
        ck_pass_time_order (ovExtend add_minutes p)) then
    .ok { db with
          passes := db.passes.map (fun p =>
            if ovTouched db ids performer actor_is_teacher p then
              ovExtend add_minutes p
            else p),
          overrides := db.overrides ++
            (db.passes.filter (ovTouched db ids performer actor_is_teacher)).map
              (fun p => ⟨p.id, performer, p.expires_at.getD 0,
                p.expires_at.getD 0 + 60 * add_minutes, reason⟩) }
  else .error .ConstraintViolation

/-- The row selection of the batch approve_all route: Pending, restricted to
the acting teacher by the assignment join when the actor is not admin, and
optionally to the students of the chosen period; the route applies that last
filter only when the enrolled-student list is nonempty. -/
def aaSelected (db : Db) (approver : Nat) (actor_is_teacher : Bool)
    (period_students : Option (List Nat)) (p : PassRec) : Bool :=
  (p.state == PassState.Pending) &&
    (!actor_is_teacher ||
      db.assignments.any (fun a => a.pass_id == p.id && a.teacher_id == approver)) &&
    (match period_students with
     | some l => if l ≠ [] then decide (p.student_id ∈ l) else true
     | none => true)

/-- The batch approve_all route (passes.py). Every selected Pending row gets
issued_at = now, expires_at = now + 60 * destination default minutes (5 when
the destination row is gone) and becomes Active. Unlike the single-pass
approve route, no PassAssignment row is inserted for the approver. The commit
enforces ck_pass_time_order on every written row. -/
def my_period_approve_all (db : Db) (approver : Nat) (actor_is_teacher : Bool)
    (period_students : Option (List Nat)) (now : Int) : Except OpError Db :=
  if db.passes.all (fun p =>
      !aaSelected db approver actor_is_teacher period_students p ||
        ck_pass_time_order (approvedPass db p now)) then
    .ok { db with
          passes := db.passes.map (fun p =>
            if aaSelected db approver actor_is_teacher period_students p then
              approvedPass db p now
            else p) }
  else .error .ConstraintViolation

/-- The row selection of the batch deny_selected route: id among the posted
ids, state Pending, restricted to the acting teacher when not admin. -/
def dsSelected (db : Db) (ids : List Nat) (tid : Nat) (it : Bool)
    (p : PassRec) : Bool :=
  decide (p.id ∈ ids) && (p.state == PassState.Pending) &&
    (!it || db.assignments.any (fun a => a.pass_id == p.id && a.teacher_id == tid))

/-- The batch deny_selected route (passes.py): an empty selection aborts;
every selected Pending row becomes Denied. -/
def my_period_deny_selected (db : Db) (ids : List Nat) (tid : Nat)
    (it : Bool) : Except OpError Db :=
  if ids = [] then .error .ValidationError
  else if db.passes.all (fun p =>
      !dsSelected db ids tid it p ||
        ck_pass_time_order { p with state := PassState.Denied }) then
    .ok { db with passes := db.passes.map (fun p =>
      if dsSelected db ids tid it p then { p with state := PassState.Denied }
      else p) }
  else .error .ConstraintViolation

/-- The row selection of the batch cancel_selected route: id among the posted
ids, state Active, restricted to the acting teacher when not admin. -/
def csSelected (db : Db) (ids : List Nat) (tid : Nat) (it : Bool)
    (p : PassRec) : Bool :=
  decide (p.id ∈ ids) && (p.state == PassState.Active) &&
    (!it || db.assignments.any (fun a => a.pass_id == p.id && a.teacher_id == tid))

/-- The batch cancel_selected route (passes.py): an empty selection aborts;
every selected Active row becomes Cancelled. -/
def my_period_cancel_selected (db : Db) (ids : List Nat) (tid : Nat)
    (it : Bool) : Except OpError Db :=
  if ids = [] then .error .ValidationError
  else if db.passes.all (fun p =>
      !csSelected db ids tid it p ||
        ck_pass_time_order { p with state := PassState.Cancelled }) then
    .ok { db with passes := db.passes.map (fun p =>
      if csSelected db ids tid it p then { p with state := PassState.Cancelled }
      else p) }
  else .error .ConstraintViolation

/-- CPython int(s) on a decimal string: optional surrounding whitespace, an
optional sign, then one or more digits. (Underscore separators and non-ASCII
digits, which CPython also accepts, are not modeled; they never occur in the
HH:MM schedule data and every unparsed form still lands in the except branch,
so the fail-open behavior is unaffected.) -/
def pyInt? (s : List Char) : Option Int :=
  let t := ((s.dropWhile Char.isWhitespace).reverse.dropWhile Char.isWhitespace).reverse
  let digits :=
    match t with
    | c :: rest => if c = '-' ∨ c = '+' then rest else t
    | [] => t
  let sgn : Int :=
    match t with
    | c :: _ => if c = '-' then -1 else 1
    | [] => 1
  if digits ≠ [] ∧ digits.all Char.isDigit then
    some (sgn * ((digits.foldl (fun n c => 10 * n + (c.toNat - 48)) 0 : Nat) : Int))
  else none

/-- The list comprehension sh, sm = [int(x) for x in s.split(":")] of
ClassPeriod.is_now_in_window: it succeeds exactly when the string has exactly
two colon-separated fields and both parse as ints; any other outcome raises
(ValueError from int, or an unpacking error) and is caught by the except. -/
def parseHM? (s : String) : Option (Int × Int) :=
  match (s.toList.splitOn ':').map pyInt? with
  | [some h, some m] => some (h, m)
  | _ => none

/-- Python truthiness of a nullable string column: None and the empty string
are falsy (the source tests "not self.start_time"). -/
def pyFalsyStr : Option String → Bool
  | none => true
  | some s => s == ""

/-- The components of datetime.utcnow() read by is_now_in_window: hour, minute
and weekday() (Python Monday = 0 .. Sunday = 6). -/
structure LocalTime where
  hour : Nat
  minute : Nat
  weekday : Fin 7

/-- A row of the class_periods table (model ClassPeriod in core.py); only the
columns the window check and teacher resolution read. -/
structure ClassPeriod where
  id : Nat
  teacher_id : Nat
  start_time : Option String
  end_time : Option String
  days_mask : Option String
  is_active : Nat
deriving DecidableEq

/-- ClassPeriod.is_now_in_window (core.py). The try/except body: both stored
times are parsed; the clock time must fall in [start, end] inclusive; a truthy
7-character day mask additionally requires the weekday character to be 1.
Every exception inside the try lands in the except branch, which returns True.
The Lean translation is total by construction, so the route can never see an
exception from this check. -/
def is_now_in_window (cp : ClassPeriod) (now : LocalTime) : Bool :=
  if pyFalsyStr cp.start_time || pyFalsyStr cp.end_time then true
  else
    match parseHM? (cp.start_time.getD ""), parseHM? (cp.end_time.getD "") with
    | some (sh, sm), some (eh, em) =>
        let start_minutes := sh * 60 + sm
        let end_minutes := eh * 60 + em
        let now_minutes : Int := (now.hour : Int) * 60 + (now.minute : Int)
        let in_time := decide (start_minutes ≤ now_minutes) &&
          decide (now_minutes ≤ end_minutes)
        match cp.days_mask with
        | some mask =>
            if mask ≠ "" ∧ mask.length = 7 then
              in_time && (mask.toList.getD now.weekday.val ' ' == '1')
            else in_time
        | none => in_time
    | _, _ => true

/-- The spec invariant on one pass row: expires_at is set iff issued_at is
set, and when both are set the deadline is strictly after the issue time. -/
def passInv (p : PassRec) : Prop :=
  (p.issued_at.isSome ↔ p.expires_at.isSome) ∧
    ∀ i e, p.issued_at = some i → p.expires_at = some e → i < e

/-- The invariant over the whole passes table. -/
def dbInv (db : Db) : Prop := ∀ p ∈ db.passes, passInv p

/-- One lifecycle operation applied through its route, with arbitrary request
parameters; only committed (successful) runs change the store. -/
inductive Step : Db → Db → Prop where
  | mkCreate (db db' : Db) (nid sid did tid : Nat)
      (h : create_pass db nid sid did tid = .ok db') : Step db db'
  | mkApprove (db db' : Db) (wb : Bool) (pid tid : Nat) (now : Int)
      (h : approve db wb pid tid now = .ok db') : Step db db'
  | mkApproveAll (db db' : Db) (tid : Nat) (it : Bool)
      (ps : Option (List Nat)) (now : Int)
      (h : my_period_approve_all db tid it ps now = .ok db') : Step db db'
  | mkDeny (db db' : Db) (pid : Nat) (h : deny db pid = .ok db') : Step db db'
  | mkCancel (db db' : Db) (pid : Nat) (staff : Bool) (aid : Nat)
      (h : cancel db pid staff aid = .ok db') : Step db db'
  | mkOverride (db db' : Db) (pid tid : Nat) (m : Int) (r : Option String)
      (h : override db pid tid m r = .ok db') : Step db db'
  | mkOverrideSelected (db db' : Db) (ids : List Nat) (tid : Nat) (it : Bool)
      (m : Int) (r : Option String)
      (h : my_period_override_selected db ids tid it m r = .ok db') : Step db db'
  | mkDenySelected (db db' : Db) (ids : List Nat) (tid : Nat) (it : Bool)
      (h : my_period_deny_selected db ids tid it = .ok db') : Step db db'
  | mkCancelSelected (db db' : Db) (ids : List Nat) (tid : Nat) (it : Bool)
      (h : my_period_cancel_selected db ids tid it = .ok db') : Step db db'
  | mkSweep (db : Db) (now : Int) : Step db (sweep db now)

/-- States reachable by chaining lifecycle operations. -/
inductive Reachable : Db → Db → Prop where
  | refl (db : Db) : Reachable db db
  | tail (db db' db'' : Db) :
      Reachable db db' → Step db' db'' → Reachable db db''

def countAssign (db : Db) (pid tid : Nat) : Nat :=
  (db.assignments.filter (fun a => a.pass_id == pid && a.teacher_id == tid)).length

/-- Store for the concrete runs below: one destination with a 5-minute
default (id 3) and one Pending pass (id 1) requested by student 2. -/
def c6Db : Db :=
  ⟨[⟨1, 2, 3, none, none, PassState.Pending⟩], [], [], [⟨3, 5, -1⟩]⟩

/-- Result of approving pass 1 of c6Db at 10:00:00 (36000 s): the timer runs
10:00:00 to 10:05:00 and teacher 9 is recorded. -/
def c6Db' : Db :=
  ⟨[⟨1, 2, 3, some 36000, some 36300, PassState.Active⟩], [⟨1, 9⟩], [],
    [⟨3, 5, -1⟩]⟩

/-- Store with one Active pass whose timer runs 10:00:00 to 10:05:00. -/
def c3Db : Db :=
  ⟨[⟨1, 2, 3, some 36000, some 36300, PassState.Active⟩], [], [], [⟨3, 5, -1⟩]⟩

/-- Result of extending pass 1 of c3Db by 10 minutes: deadline 10:15:00 and
one Override row 10:05:00 to 10:15:00. -/
def c3Db' : Db :=
  ⟨[⟨1, 2, 3, some 36000, some 36900, PassState.Active⟩], [],
    [⟨1, 9, 36300, 36900, some "medical"⟩], [⟨3, 5, -1⟩]⟩

/-- Store with one Expired pass whose timer ran from 0 to 600 seconds. -/
def c2Db : Db :=
  ⟨[⟨1, 2, 3, some 0, some 600, PassState.Expired⟩], [], [], [⟨3, 5, -1⟩]⟩

/-- Store with one Pending pass and no assignments, for the admin batch
approval run. -/
def c4Db : Db :=
  ⟨[⟨1, 2, 3, none, none, PassState.Pending⟩], [], [], [⟨3, 5, -1⟩]⟩

/-- Start store for the reachability witness: one destination, no passes. -/
def c1Db0 : Db := ⟨[], [], [], [⟨3, 5, -1⟩]⟩

/-- c1Db0 after create: one Pending pass assigned to teacher 9. -/
def c1Db1 : Db :=
  ⟨[⟨1, 2, 3, none, none, PassState.Pending⟩], [⟨1, 9⟩], [], [⟨3, 5, -1⟩]⟩

/-- c1Db1 after approval by teacher 9 at time 100. -/
def c1Db2 : Db :=
  ⟨[⟨1, 2, 3, some 100, some 400, PassState.Active⟩], [⟨1, 9⟩], [],
    [⟨3, 5, -1⟩]⟩

/-- A row of the kiosks table (model Kiosk in core.py): a token bound
optionally to a class period or directly to a teacher. -/
structure KioskRec where
  token : String
  class_period_id : Option Nat
  teacher_id : Option Nat
  is_active : Nat
deriving DecidableEq

/-- A row of the student_enrollments table (model StudentEnrollment). -/
structure EnrollRec where
  student_id : Nat
  class_period_id : Nat
  is_active : Nat
deriving DecidableEq

/-- A user row with its role name joined in (models User joined to Role). -/
structure UserRec where
  id : Nat
  role_name : String
  is_active_flag : Nat
deriving DecidableEq

/-- The tables the teacher-resolution logic of request_pass reads. -/
structure ResolveDb where
  kiosks : List KioskRec
  periods : List ClassPeriod
  enrollments : List EnrollRec
  users : List UserRec
deriving DecidableEq

/-- Python truthiness of a nullable integer foreign key: None and 0 are
falsy; the source tests the bare value (if kiosk.class_period_id:). -/
def pyTruthyId : Option Nat → Bool
  | none => false
  | some n => n != 0

/-- db.session.get(ClassPeriod, cid). -/
def getPeriod (rdb : ResolveDb) (cid : Nat) : Option ClassPeriod :=
  rdb.periods.find? (fun c => c.id == cid)

/-- db.session.get(User, uid). -/
def getUser (rdb : ResolveDb) (uid : Nat) : Option UserRec :=
  rdb.users.find? (fun u => u.id == uid)

/-- The enrolled_periods query of request_pass: the periods in which the
student holds an active enrollment, that are themselves active and whose
owner holds the Teacher role and is active. -/
def enrolledPeriods (rdb : ResolveDb) (student : Nat) : List ClassPeriod :=
  rdb.periods.filter (fun cp =>
    rdb.enrollments.any (fun en =>
      en.student_id == student && en.class_period_id == cp.id &&
        en.is_active == 1) &&
    cp.is_active == 1 &&
    rdb.users.any (fun u =>
      u.id == cp.teacher_id && u.role_name == "Teacher" &&
        u.is_active_flag == 1))

/-- unique_teachers: the distinct owners of the enrolled periods. -/
def uniqueTeachers (rdb : ResolveDb) (student : Nat) : List Nat :=
  ((enrolledPeriods rdb student).map (fun cp => cp.teacher_id)).dedup

/-- The teacher-resolution logic of the request_pass route (passes.py).
Phase one (before the POST block): an active kiosk binding for the token is
looked up; a truthy class_period_id on it wins over a direct teacher binding;
failing both, a single distinct teacher over the enrolled periods is
inferred. Phase two (the POST block): under strict kiosk binding a
kiosk-resolved value is kept as is; otherwise the form period choice is
honored when the student holds an active enrollment in the chosen period, and
the single-teacher inference is repeated when still unresolved. Integer
foreign keys follow Python truthiness (0 reads as unset). -/
def resolve_target_teacher (rdb : ResolveDb) (student : Nat)
    (kiosk_token : Option String) (form_period_choice : Option Nat)
    (kiosk_strict : Bool) : Option Nat :=
  let kiosk : Option KioskRec :=
    match kiosk_token with
    | none => none
    | some tok =>
        rdb.kiosks.find? (fun (kk : KioskRec) => kk.token == tok && kk.is_active == 1)
  let is_kiosk := kiosk.isSome
  let kiosk_cp_id : Option Nat :=
    match kiosk with
    | some k => if pyTruthyId k.class_period_id then k.class_period_id else none
    | none => none
  let kiosk_teacher_id : Option Nat :=
    match kiosk with
    | some k =>
        if pyTruthyId k.class_period_id then none
        else if pyTruthyId k.teacher_id then k.teacher_id else none
    | none => none
  let target0 : Option Nat :=
    if pyTruthyId kiosk_cp_id then
      (getPeriod rdb (kiosk_cp_id.getD 0)).map (fun cp => cp.teacher_id)
    else if pyTruthyId kiosk_teacher_id then
      (getUser rdb (kiosk_teacher_id.getD 0)).map (fun u => u.id)
    else none
  let target1 : Option Nat :=
    if pyTruthyId target0 then target0
    else
      match uniqueTeachers rdb student with
      | [t] => some t
      | _ => target0
  if kiosk_strict && is_kiosk &&
      (pyTruthyId kiosk_cp_id || pyTruthyId kiosk_teacher_id) then
    target1
  else
    let target2 : Option Nat :=
      match form_period_choice with
      | some cpid =>
          if cpid ≠ 0 then
            match getPeriod rdb cpid with
            | some cp =>
                if rdb.enrollments.any (fun en =>
                    en.student_id == student && en.class_period_id == cp.id &&
                      en.is_active == 1) then
                  some cp.teacher_id
                else target1
            | none => target1
          else target1
      | none => target1
    if pyTruthyId target2 then target2
    else
      match uniqueTeachers rdb student with
      | [t] => some t
      | _ => target2

/-- Resolution store for the witness: kiosk "tok1" bound to period 1 owned by
teacher 10; the requesting student 5 is enrolled in period 2 owned by teacher
20 and explicitly chooses period 2; teacher 10 is still selected. -/
def c9Db : ResolveDb :=
  ⟨[⟨"tok1", some 1, none, 1⟩],
   [⟨1, 10, none, none, none, 1⟩, ⟨2, 20, none, none, none, 1⟩],
   [⟨5, 2, 1⟩],
   [⟨10, "Teacher", 1⟩, ⟨20, "Teacher", 1⟩]⟩

/-- The sweep in the index route and Pass.mark_expired_if_needed apply the same
per-row transition. -/
theorem mark_expired_agrees_sweepPass (p : PassRec) (now : Int) :
    mark_expired_if_needed p now = sweepPass now p := by
  unfold mark_expired_if_needed sweepPass sweepSelected
  cases hs : p.state <;> cases he : p.expires_at <;> simp [hs, he]

/-- C8: is_now_in_window is a total function (the except branch absorbs every
parse failure, so the check never raises) and it fails open: a missing or
empty start or end time means always in-window, and a parse failure of either
stored string also yields in-window. -/
theorem window_fails_open (cp : ClassPeriod) (now : LocalTime) :
    (pyFalsyStr cp.start_time = true ∨ pyFalsyStr cp.end_time = true →
      is_now_in_window cp now = true) ∧
    (parseHM? (cp.start_time.getD "") = none ∨ parseHM? (cp.end_time.getD "") = none →
      is_now_in_window cp now = true) := by
  unfold is_now_in_window
  constructor
  · intro h
    rcases h with h | h <;> simp [h]
  · intro h
    by_cases hf : (pyFalsyStr cp.start_time || pyFalsyStr cp.end_time) = true
    · simp [hf]
    · simp only [hf, if_false, Bool.false_eq_true]
      rcases h with h | h <;> simp [h]

/-- Closed instance of window_fails_open: a malformed stored start time
("8:3O", capital O) and a missing start time both report in-window. -/
theorem window_fails_open_witness :
    is_now_in_window ⟨1, 10, some "8:3O", some "09:20", none, 1⟩ ⟨23, 59, 6⟩ = true ∧
    is_now_in_window ⟨1, 10, none, some "09:20", none, 1⟩ ⟨23, 59, 6⟩ = true :=
  ⟨(window_fails_open ⟨1, 10, some "8:3O", some "09:20", none, 1⟩ ⟨23, 59, 6⟩).2
      (Or.inl (by decide)),
   (window_fails_open ⟨1, 10, none, some "09:20", none, 1⟩ ⟨23, 59, 6⟩).1
      (Or.inl (by decide))⟩

/-- C10: a day mask whose length is not 7 is silently ignored: the window test
then agrees, at every instant, with the same period carrying no mask at all,
so in-window status is decided by the time range alone. -/
theorem bad_mask_ignored (cp : ClassPeriod) (m : String) (now : LocalTime)
    (hm : cp.days_mask = some m) (hlen : m.length ≠ 7) :
    is_now_in_window cp now =
      is_now_in_window { cp with days_mask := none } now := by
  unfold is_now_in_window
  by_cases hf : (pyFalsyStr cp.start_time || pyFalsyStr cp.end_time) = true
  · simp [hf]
  · simp only [hf, if_false, Bool.false_eq_true]
    cases hs : parseHM? (cp.start_time.getD "") with
    | none => simp
    | some a =>
      cases he2 : parseHM? (cp.end_time.getD "") with
      | none => simp
      | some b =>
        obtain ⟨sh, sm⟩ := a
        obtain ⟨eh, em⟩ := b
        simp [hm, hlen]

/-- Closed instance of bad_mask_ignored: a 5-character mask of all zeros does
not suppress the in-window result given by the time range. -/
theorem bad_mask_ignored_witness :
    is_now_in_window ⟨1, 10, some "08:30", some "09:20", some "00000", 1⟩ ⟨9, 0, 2⟩ =
      is_now_in_window ⟨1, 10, some "08:30", some "09:20", none, 1⟩ ⟨9, 0, 2⟩ :=
  bad_mask_ignored ⟨1, 10, some "08:30", some "09:20", some "00000", 1⟩ "00000" ⟨9, 0, 2⟩
    rfl (by decide)

theorem passes_addAssignIfMissing (db : Db) (pid tid : Nat) :
    (addAssignIfMissing db pid tid).passes = db.passes := by
  unfold addAssignIfMissing
  split <;> rfl

theorem mem_setPass {db : Db} {q x : PassRec}
    (hx : x ∈ (setPass db q).passes) : x = q ∨ x ∈ db.passes := by
  unfold setPass at hx
  simp only [List.mem_map] at hx
  obtain ⟨r, hr, hxr⟩ := hx
  by_cases h : (r.id == q.id) = true
  · rw [if_pos h] at hxr
    exact Or.inl hxr.symm
  · rw [if_neg h] at hxr
    exact Or.inr (hxr ▸ hr)

theorem create_preserves {db db' : Db} {nid sid did tid : Nat}
    (hinv : dbInv db) (h : create_pass db nid sid did tid = .ok db') :
    dbInv db' := by
  unfold create_pass at h
  split at h
  · simp at h
  · simp only [Except.ok.injEq] at h
    subst h
    intro p hp
    rcases List.mem_append.mp hp with hp | hp
    · exact hinv p hp
    · rw [List.mem_singleton] at hp
      subst hp
      exact ⟨by simp, fun i e hi _ => by simp at hi⟩

theorem approve_preserves {db db' : Db} {wb : Bool} {pid tid : Nat} {now : Int}
    (hinv : dbInv db) (h : approve db wb pid tid now = .ok db') : dbInv db' := by
  unfold approve at h
  split at h
  · simp at h
  · rename_i p hp
    split at h
    · simp at h
    · split at h
      · simp at h
      · split at h
        · simp at h
        · rename_i hno_ck
          simp only [Except.ok.injEq] at h
          subst h
          intro x hx
          rw [passes_addAssignIfMissing] at hx
          rcases mem_setPass hx with hx | hx
          · subst hx
            by_cases hpend : p.state = PassState.Pending
            · have hne : approvedPass db p now ≠ p := by
                unfold approvedPass
                rw [if_pos hpend]
                intro hcontra
                have := congrArg PassRec.state hcontra
                rw [hpend] at this
                simp at this
              have hck : ck_pass_time_order (approvedPass db p now) = true := by
                by_contra hcc
                exact hno_ck ⟨hne, by simpa using hcc⟩
              unfold approvedPass at hck ⊢
              rw [if_pos hpend] at hck ⊢
              unfold ck_pass_time_order at hck
              simp at hck
              exact ⟨by simp, fun i e hi he => by simp at hi he; omega⟩
            · unfold approvedPass
              rw [if_neg hpend]
              exact hinv p (List.mem_of_find?_eq_some hp)
          · exact hinv x hx

theorem deny_preserves {db db' : Db} {pid : Nat}
    (hinv : dbInv db) (h : deny db pid = .ok db') : dbInv db' := by
  unfold deny at h
  split at h
  · simp at h
  · rename_i p hp
    split at h
    · simp at h
    · split at h
      · simp only [Except.ok.injEq] at h
        subst h
        intro x hx
        rcases mem_setPass hx with hx | hx
        · subst hx
          exact hinv p (List.mem_of_find?_eq_some hp)
        · exact hinv x hx
      · simp at h

theorem cancel_preserves {db db' : Db} {pid : Nat} {staff : Bool} {aid : Nat}
    (hinv : dbInv db) (h : cancel db pid staff aid = .ok db') : dbInv db' := by
  unfold cancel at h
  split at h
  · simp at h
  · rename_i p hp
    split at h
    · simp at h
    · split at h
      · simp at h
      · split at h
        · simp only [Except.ok.injEq] at h
          subst h
          intro x hx
          rcases mem_setPass hx with hx | hx
          · subst hx
            exact hinv p (List.mem_of_find?_eq_some hp)
          · exact hinv x hx
        · simp at h

theorem override_preserves {db db' : Db} {pid tid : Nat} {m : Int}
    {r : Option String}
    (hinv : dbInv db) (h : override db pid tid m r = .ok db') : dbInv db' := by
  unfold override at h
  split at h
  · simp at h
  · rename_i p hp
    split at h
    · simp at h
    · rename_i e he
      split at h
      · rename_i hck
        simp only [Except.ok.injEq] at h
        subst h
        intro x hx
        rcases mem_setPass hx with hx | hx
        · subst hx
          have hpinv := hinv p (List.mem_of_find?_eq_some hp)
          have hiss : p.issued_at.isSome := hpinv.1.mpr (by rw [he]; rfl)
          obtain ⟨i, hi⟩ := Option.isSome_iff_exists.mp hiss
          unfold ck_pass_time_order at hck
          rw [hi] at hck
          simp at hck
          exact ⟨by simp [hi], fun i' e' hi' he' => by
            rw [hi] at hi'
            simp at hi' he'
            omega⟩
        · exact hinv x hx
      · simp at h

theorem approve_all_preserves {db db' : Db} {tid : Nat} {it : Bool}
    {ps : Option (List Nat)} {now : Int}
    (hinv : dbInv db) (h : my_period_approve_all db tid it ps now = .ok db') :
    dbInv db' := by
  unfold my_period_approve_all at h
  split at h
  · rename_i hall
    simp only [Except.ok.injEq] at h
    subst h
    intro x hx
    simp only [List.mem_map] at hx
    obtain ⟨p, hp, hxp⟩ := hx
    by_cases hsel : aaSelected db tid it ps p = true
    · rw [if_pos hsel] at hxp
      subst hxp
      have hck := List.all_eq_true.mp hall p hp
      rw [hsel] at hck
      simp at hck
      have hpend : p.state = PassState.Pending := by
        unfold aaSelected at hsel
        simp only [Bool.and_eq_true, beq_iff_eq] at hsel
        exact hsel.1.1
      unfold approvedPass at hck ⊢
      rw [if_pos hpend] at hck ⊢
      unfold ck_pass_time_order at hck
      simp at hck
      exact ⟨by simp, fun i e hi he => by simp at hi he; omega⟩
    · rw [if_neg hsel] at hxp
      subst hxp
      exact hinv p hp
  · simp at h

theorem override_selected_preserves {db db' : Db} {ids : List Nat} {tid : Nat}
    {it : Bool} {m : Int} {r : Option String}
    (hinv : dbInv db)
    (h : my_period_override_selected db ids tid it m r = .ok db') :
    dbInv db' := by
  unfold my_period_override_selected at h
  split at h
  · simp at h
  · split at h
    · rename_i hall
      simp only [Except.ok.injEq] at h
      subst h
      intro x hx
      simp only [List.mem_map] at hx
      obtain ⟨p, hp, hxp⟩ := hx
      by_cases ht : ovTouched db ids tid it p = true
      · rw [if_pos ht] at hxp
        subst hxp
        have hck := List.all_eq_true.mp hall p hp
        rw [ht] at hck
        simp at hck
        have hesome : p.expires_at.isSome := by
          unfold ovTouched at ht
          simp only [Bool.and_eq_true] at ht
          exact ht.2
        obtain ⟨e, he⟩ := Option.isSome_iff_exists.mp hesome
        have hpinv := hinv p hp
        have hiss : p.issued_at.isSome := hpinv.1.mpr hesome
        obtain ⟨i, hi⟩ := Option.isSome_iff_exists.mp hiss
        unfold ovExtend at hck ⊢
        rw [he] at hck ⊢
        unfold ck_pass_time_order at hck
        rw [hi] at hck
        simp at hck
        exact ⟨by simp [hi], fun i' e' hi' he' => by
          rw [hi] at hi'
          simp at hi' he'
          omega⟩
      · rw [if_neg ht] at hxp
        subst hxp
        exact hinv p hp
    · simp at h

theorem sweep_preserves {db : Db} {now : Int} (hinv : dbInv db) :
    dbInv (sweep db now) := by
  intro x hx
  simp only [sweep, List.mem_map] at hx
  obtain ⟨p, hp, hxp⟩ := hx
  subst hxp
  unfold sweepPass
  split
  · exact hinv p hp
  · exact hinv p hp

theorem deny_selected_preserves {db db' : Db} {ids : List Nat} {tid : Nat}
    {it : Bool} (hinv : dbInv db)
    (h : my_period_deny_selected db ids tid it = .ok db') : dbInv db' := by
  unfold my_period_deny_selected at h
  split at h
  · simp at h
  · split at h
    · simp only [Except.ok.injEq] at h
      subst h
      intro x hx
      simp only [List.mem_map] at hx
      obtain ⟨p, hp, hxp⟩ := hx
      subst hxp
      split
      · exact hinv p hp
      · exact hinv p hp
    · simp at h

theorem cancel_selected_preserves {db db' : Db} {ids : List Nat} {tid : Nat}
    {it : Bool} (hinv : dbInv db)
    (h : my_period_cancel_selected db ids tid it = .ok db') : dbInv db' := by
  unfold my_period_cancel_selected at h
  split at h
  · simp at h
  · split at h
    · simp only [Except.ok.injEq] at h
      subst h
      intro x hx
      simp only [List.mem_map] at hx
      obtain ⟨p, hp, hxp⟩ := hx
      subst hxp
      split
      · exact hinv p hp
      · exact hinv p hp
    · simp at h

theorem step_preserves {db db' : Db} (hinv : dbInv db) (h : Step db db') :
    dbInv db' := by
  cases h with
  | mkCreate _ _ _ _ _ h => exact create_preserves hinv h
  | mkApprove _ _ _ _ _ h => exact approve_preserves hinv h
  | mkApproveAll _ _ _ _ _ h => exact approve_all_preserves hinv h
  | mkDeny _ _ h => exact deny_preserves hinv h
  | mkCancel _ _ _ _ h => exact cancel_preserves hinv h
  | mkOverride _ _ _ _ _ h => exact override_preserves hinv h
  | mkOverrideSelected _ _ _ _ _ _ h => exact override_selected_preserves hinv h
  | mkDenySelected _ _ _ _ h => exact deny_selected_preserves hinv h
  | mkCancelSelected _ _ _ _ h => exact cancel_selected_preserves hinv h
  | mkSweep _ => exact sweep_preserves hinv

/-- C1: every store reachable from an invariant-satisfying store through the
lifecycle operations (create, approve, deny, cancel, extend and sweep, the
batch variants included) has, on every pass, expires_at set iff issued_at is
set, with expires_at strictly after issued_at when both are set. -/
theorem lifecycle_invariant (db db' : Db) (h0 : dbInv db)
    (h : Reachable db db') : dbInv db' := by
  induction h with
  | refl => exact h0
  | tail _ _ _ hstep ih => exact step_preserves ih hstep

/-- C7: remaining_seconds is 0 for every pass that is not Active or whose
expires_at is unset, equals max(0, expires_at - now) for an Active pass with a
set deadline, and is never negative. -/
theorem remaining_seconds_spec (p : PassRec) (now : Int) :
    0 ≤ remaining_seconds p now ∧
    (p.state ≠ PassState.Active → remaining_seconds p now = 0) ∧
    (p.expires_at = none → remaining_seconds p now = 0) ∧
    (∀ e, p.state = PassState.Active → p.expires_at = some e →
      remaining_seconds p now = max 0 (e - now)) := by
  unfold remaining_seconds
  cases hs : p.state <;> cases he : p.expires_at <;>
    simp [hs, he, le_max_left]

/-- Closed instance of remaining_seconds_spec: an Active pass 40 seconds past
its deadline reports 0 remaining seconds, never a negative number. -/
theorem remaining_seconds_spec_witness :
    remaining_seconds ⟨1, 2, 3, some 100, some 160, PassState.Active⟩ 200 = max 0 (160 - 200) ∧
    remaining_seconds ⟨1, 2, 3, some 100, some 160, PassState.Expired⟩ 200 = 0 :=
  ⟨(remaining_seconds_spec ⟨1, 2, 3, some 100, some 160, PassState.Active⟩ 200).2.2.2 160
      rfl rfl,
   (remaining_seconds_spec ⟨1, 2, 3, some 100, some 160, PassState.Expired⟩ 200).2.1
      (by decide)⟩

/-- C5: the sweep transitions a row to Expired exactly when it was Active with
a set deadline at or before now; an Active row with a later deadline and every
Pending or otherwise non-Active row is untouched. -/
theorem sweep_spec (now : Int) (p : PassRec) :
    ((sweepPass now p).state = PassState.Expired ∧ p.state ≠ PassState.Expired
        ↔ p.state = PassState.Active ∧ ∃ e, p.expires_at = some e ∧ e ≤ now) ∧
    (∀ e, p.expires_at = some e → now < e → sweepPass now p = p) ∧
    (p.state = PassState.Pending → sweepPass now p = p) ∧
    (p.state ≠ PassState.Active → sweepPass now p = p) ∧
    (sweepPass now p ≠ p → sweepPass now p = { p with state := PassState.Expired }) := by
  obtain ⟨i, s, d, iss, ex, st⟩ := p
  unfold sweepPass sweepSelected
  cases st <;> cases ex <;> simp
  rename_i e
  by_cases hle : e ≤ now <;> simp [hle]

/-- Closed instance of sweep_spec: an overdue Active pass is expired by the
sweep and a Pending pass is untouched. -/
theorem sweep_spec_witness :
    (sweepPass 200 ⟨1, 2, 3, some 100, some 160, PassState.Active⟩).state =
      PassState.Expired ∧
    sweepPass 100 ⟨1, 2, 3, some 100, some 160, PassState.Active⟩ =
      ⟨1, 2, 3, some 100, some 160, PassState.Active⟩ ∧
    sweepPass 200 ⟨4, 2, 3, none, none, PassState.Pending⟩ =
      ⟨4, 2, 3, none, none, PassState.Pending⟩ :=
  ⟨((sweep_spec 200 ⟨1, 2, 3, some 100, some 160, PassState.Active⟩).1.mpr
      ⟨rfl, 160, rfl, by decide⟩).1,
   (sweep_spec 100 ⟨1, 2, 3, some 100, some 160, PassState.Active⟩).2.1 160 rfl (by decide),
   (sweep_spec 200 ⟨4, 2, 3, none, none, PassState.Pending⟩).2.2.1 rfl⟩

theorem getPass_id {db : Db} {pid : Nat} {p : PassRec}
    (h : getPass db pid = some p) : p.id = pid := by
  have := List.find?_some h
  simpa using this

theorem find?_map_update (l : List PassRec) (pid : Nat) (p q : PassRec)
    (h : l.find? (fun r => r.id == pid) = some p) (hq : q.id = pid) :
    (l.map (fun r => if r.id == q.id then q else r)).find?
      (fun r => r.id == pid) = some q := by
  induction l with
  | nil => simp at h
  | cons a t ih =>
      by_cases ha : (a.id == pid) = true
      · have haq : (a.id == q.id) = true := by rw [hq]; exact ha
        have hqp : (q.id == pid) = true := by simp [hq]
        simp only [List.map_cons, haq, if_true]
        rw [List.find?_cons]
        simp [hqp]
      · have ha' : (a.id == pid) = false := by simpa using ha
        have haq : (a.id == q.id) = false := by rw [hq]; exact ha'
        rw [List.find?_cons] at h
        simp only [ha'] at h
        simp only [List.map_cons, haq, Bool.false_eq_true, if_false]
        rw [List.find?_cons]
        simp only [ha']
        exact ih h

theorem getPass_setPass {db : Db} {pid : Nat} {p q : PassRec}
    (h : getPass db pid = some p) (hq : q.id = pid) :
    getPass (setPass db q) pid = some q :=
  find?_map_update db.passes pid p q h hq

theorem getPass_addAssignIfMissing (db : Db) (pid tid x : Nat) :
    getPass (addAssignIfMissing db pid tid) x = getPass db x := by
  unfold getPass
  rw [passes_addAssignIfMissing]

/-- C6: approving a pass in state Pending stamps issued_at = now, expires_at
= now plus 60 times the destination default minutes, and state Active. The
witness instantiates the spec scenario: a 5-minute destination approved at
10:00:00 (36000 s) yields issued 10:00:00, expiry 10:05:00, state Active. -/
theorem approve_pending_sets_timer (db db' : Db) (wb : Bool) (pid tid : Nat)
    (now : Int) (p : PassRec) (d : DestRec)
    (hp : getPass db pid = some p) (hs : p.state = PassState.Pending)
    (hd : getDest db p.destination_id = some d)
    (h : approve db wb pid tid now = .ok db') :
    getPass db' pid =
      some { p with issued_at := some now,
                    expires_at := some (now + 60 * d.default_minutes),
                    state := PassState.Active } := by
  unfold approve at h
  split at h
  · rename_i hnone
    rw [hp] at hnone
    simp at hnone
  · rename_i p' hp'
    rw [hp] at hp'
    simp only [Option.some.injEq] at hp'
    subst hp'
    split at h
    · simp at h
    · split at h
      · simp at h
      · split at h
        · simp at h
        · simp only [Except.ok.injEq] at h
          subst h
          rw [getPass_addAssignIfMissing]
          have hid : p.id = pid := getPass_id hp
          have hq : (approvedPass db p now).id = pid := by
            unfold approvedPass
            rw [if_pos hs]
            exact hid
          rw [getPass_setPass hp hq]
          unfold approvedPass
          rw [if_pos hs]
          unfold approveMinutes
          rw [hd]

/-- Closed instance of approve_pending_sets_timer, the spec scenario:
destination default 5 minutes, approval at 10:00:00. -/
theorem approve_pending_sets_timer_witness :
    getPass c6Db' 1 =
      some ⟨1, 2, 3, some 36000, some 36300, PassState.Active⟩ :=
  approve_pending_sets_timer c6Db c6Db' false 1 9 36000
    ⟨1, 2, 3, none, none, PassState.Pending⟩ ⟨3, 5, -1⟩ rfl rfl rfl (by rfl)

/-- C3: a successful run of the extend operation on an Active pass with a set
deadline appends exactly one Override row whose new and previous deadlines
differ by exactly 60 * add_minutes seconds, and rewrites the pass deadline to
the recorded new value. -/
theorem override_appends_one (db db' : Db) (pid tid : Nat) (m : Int)
    (r : Option String) (p : PassRec) (e : Int)
    (hp : getPass db pid = some p) (hs : p.state = PassState.Active)
    (he : p.expires_at = some e)
    (h : override db pid tid m r = .ok db') :
    db'.overrides = db.overrides ++ [⟨p.id, tid, e, e + 60 * m, r⟩] ∧
    getPass db' pid = some { p with expires_at := some (e + 60 * m) } ∧
    (⟨p.id, tid, e, e + 60 * m, r⟩ : OverrideRec).new_expires_at -
      (⟨p.id, tid, e, e + 60 * m, r⟩ : OverrideRec).previous_expires_at =
        60 * m := by
  unfold override at h
  split at h
  · rename_i hnone
    rw [hp] at hnone
    simp at hnone
  · rename_i p' hp'
    rw [hp] at hp'
    simp only [Option.some.injEq] at hp'
    subst hp'
    split at h
    · rename_i hen
      rw [he] at hen
      simp at hen
    · rename_i e' he'
      rw [he] at he'
      simp only [Option.some.injEq] at he'
      subst he'
      split at h
      · simp only [Except.ok.injEq] at h
        subst h
        refine ⟨rfl, ?_, by ring⟩
        have hid : p.id = pid := getPass_id hp
        have hq : ({ p with expires_at := some (e + 60 * m) } : PassRec).id = pid :=
          hid
        exact getPass_setPass hp hq
      · simp at h

/-- Closed instance of override_appends_one, the spec scenario: extend by 10
minutes a pass expiring 10:05:00; one Override row 10:05:00 to 10:15:00 and
the new deadline is 10:15:00. -/
theorem override_appends_one_witness :
    c3Db'.overrides = c3Db.overrides ++ [⟨1, 9, 36300, 36900, some "medical"⟩] ∧
    getPass c3Db' 1 = some ⟨1, 2, 3, some 36000, some 36900, PassState.Active⟩ ∧
    (⟨1, 9, 36300, 36900, some "medical"⟩ : OverrideRec).new_expires_at -
      (⟨1, 9, 36300, 36900, some "medical"⟩ : OverrideRec).previous_expires_at =
        60 * 10 :=
  override_appends_one c3Db c3Db' 1 9 10 (some "medical")
    ⟨1, 2, 3, some 36000, some 36300, PassState.Active⟩ 36300 rfl rfl rfl (by rfl)

/-- C2 counterexample: the single-pass override route (the extend action the
index page offers on a pass) accepts a pass in state Expired together with
add_minutes = -5: it commits, rewrites expires_at from 600 to 300 and appends
an Override row, where the claim requires InvalidTransition for every
non-Active state and ValidationError for minutes <= 0 with pass and ledger
unchanged. -/
theorem override_skips_validation :
    override c2Db 1 7 (-5) none =
      Except.ok ⟨[⟨1, 2, 3, some 0, some 300, PassState.Expired⟩], [],
        [⟨1, 7, 600, 300, none⟩], [⟨3, 5, -1⟩]⟩ := by rfl

/-- C2 amended: the stated guards hold for the batch extend route
(override_selected) but not for the single-pass override route: the batch
rejects minutes <= 0 (and an empty selection) with ValidationError and no
write, and a successful batch never changes a row that is not Active with a
set expires_at; the single-pass route applies the extension with no state or
minutes validation (see the counterexample). -/
theorem override_selected_guards (db : Db) (ids : List Nat) (tid : Nat)
    (it : Bool) (m : Int) (r : Option String) :
    (m ≤ 0 → my_period_override_selected db ids tid it m r =
      .error .ValidationError) ∧
    (∀ db', my_period_override_selected db ids tid it m r = .ok db' →
      ∀ (i : Nat) (p : PassRec), db.passes[i]? = some p →
        p.state ≠ PassState.Active ∨ p.expires_at = none →
        db'.passes[i]? = some p) := by
  constructor
  · intro hm
    unfold my_period_override_selected
    rw [if_pos (Or.inr hm)]
  · intro db' h i p hip hnp
    unfold my_period_override_selected at h
    split at h
    · simp at h
    · split at h
      · simp only [Except.ok.injEq] at h
        subst h
        simp only [List.getElem?_map, hip, Option.map_some]
        have hnt : ovTouched db ids tid it p = false := by
          unfold ovTouched ovSelected
          rcases hnp with hnp | hnp
          · simp [hnp]
          · simp [hnp]
        simp [hnt]
      · simp at h

/-- Closed instance of override_selected_guards: a batch extend by -3 minutes
is rejected with ValidationError and no write. -/
theorem override_selected_guards_witness :
    my_period_override_selected c2Db [1] 7 false (-3) none =
      .error .ValidationError :=
  (override_selected_guards c2Db [1] 7 false (-3) none).1 (by decide)

/-- C4 counterexample: an admin batch approval (approve_all) transitions the
Pending pass 1 to Active yet inserts no PassAssignment for the approving
actor 99, so not every approval that transitions a pass from Pending to
Active records the approver as a PassAssignment. -/
theorem approve_all_adds_no_assignment :
    my_period_approve_all c4Db 99 false none 0 =
      Except.ok ⟨[⟨1, 2, 3, some 0, some 300, PassState.Active⟩], [], [],
        [⟨3, 5, -1⟩]⟩ := by rfl

theorem countAssign_addAssignIfMissing (db : Db) (pid tid : Nat) :
    countAssign (addAssignIfMissing db pid tid) pid tid =
      if countAssign db pid tid = 0 then 1 else countAssign db pid tid := by
  unfold addAssignIfMissing countAssign
  by_cases hf : (db.assignments.find?
      (fun a => a.pass_id == pid && a.teacher_id == tid)).isSome = true
  · rw [if_pos hf]
    have hne : (db.assignments.filter
        (fun a => a.pass_id == pid && a.teacher_id == tid)).length ≠ 0 := by
      obtain ⟨a, ha⟩ := Option.isSome_iff_exists.mp hf
      have hmem := List.mem_of_find?_eq_some ha
      have hpa := List.find?_some ha
      have hin : a ∈ db.assignments.filter
          (fun a => a.pass_id == pid && a.teacher_id == tid) :=
        List.mem_filter.mpr ⟨hmem, hpa⟩
      intro hlen
      rw [List.length_eq_zero] at hlen
      rw [hlen] at hin
      simp at hin
    rw [if_neg hne]
  · rw [if_neg hf]
    have h0 : db.assignments.filter
        (fun a => a.pass_id == pid && a.teacher_id == tid) = [] := by
      rw [List.filter_eq_nil_iff]
      intro a ha
      have := List.find?_eq_none.mp (Option.not_isSome_iff_eq_none.mp hf) a ha
      simpa using this
    simp [List.filter_append, h0]

theorem approve_countAssign {db db' : Db} {wb : Bool} {pid tid : Nat}
    {now : Int} (h : approve db wb pid tid now = .ok db') :
    countAssign db' pid tid =
      if countAssign db pid tid = 0 then 1 else countAssign db pid tid := by
  unfold approve at h
  split at h
  · simp at h
  · rename_i p hp
    split at h
    · simp at h
    · split at h
      · simp at h
      · split at h
        · simp at h
        · simp only [Except.ok.injEq] at h
          subst h
          rw [getPass_id hp]
          exact countAssign_addAssignIfMissing
            (setPass db (approvedPass db p now)) pid tid

/-- C4 amended: the single-pass approve route satisfies the claim: a
successful approval starting with no (pass, approver) assignment records
exactly one, and re-approving the then-Active pass with the same approver
still leaves exactly one row for the pair; the batch approve_all route, by
contrast, records no assignment at all (see the counterexample). -/
theorem approve_assignment_idempotent (db db1 db2 : Db) (wb1 wb2 : Bool)
    (pid tid : Nat) (now1 now2 : Int)
    (h0 : countAssign db pid tid = 0)
    (h1 : approve db wb1 pid tid now1 = .ok db1)
    (h2 : approve db1 wb2 pid tid now2 = .ok db2) :
    countAssign db1 pid tid = 1 ∧ countAssign db2 pid tid = 1 := by
  have e1 := approve_countAssign h1
  rw [h0] at e1
  simp at e1
  have e2 := approve_countAssign h2
  rw [e1] at e2
  simp at e2
  exact ⟨e1, e2⟩

/-- Closed instance of approve_assignment_idempotent: approving the Pending
pass of c6Db twice with teacher 9 leaves exactly one assignment row. -/
theorem approve_assignment_idempotent_witness :
    countAssign c6Db' 1 9 = 1 ∧ countAssign c6Db' 1 9 = 1 :=
  approve_assignment_idempotent c6Db c6Db' c6Db' false false 1 9 36000 40000
    rfl (by rfl) (by rfl)

/-- Closed instance of lifecycle_invariant: the invariant holds after a
concrete create-then-approve chain from a store with no passes. -/
theorem lifecycle_invariant_witness : dbInv c1Db2 :=
  lifecycle_invariant c1Db0 c1Db2
    (fun p hp => absurd hp (List.not_mem_nil p))
    (Reachable.tail c1Db0 c1Db1 c1Db2
      (Reachable.tail c1Db0 c1Db0 c1Db1 (Reachable.refl c1Db0)
        (Step.mkCreate c1Db0 c1Db1 1 2 3 9 (by rfl)))
      (Step.mkApprove c1Db1 c1Db2 false 1 9 100 (by rfl)))

/-- C9: under strict kiosk binding (the default configuration), an active
kiosk binding bound to an existing period P resolves to the owner of P for
every explicit period choice the requester may submit, and never to the owner
of a different period. -/
theorem kiosk_period_precedence (rdb : ResolveDb) (student : Nat)
    (tok : String) (choice : Option Nat) (k : KioskRec) (P : ClassPeriod)
    (hk : rdb.kiosks.find? (fun kk => kk.token == tok && kk.is_active == 1) =
      some k)
    (hcp : k.class_period_id = some P.id)
    (hPid : P.id ≠ 0) (hT : P.teacher_id ≠ 0)
    (hP : getPeriod rdb P.id = some P) :
    resolve_target_teacher rdb student (some tok) choice true =
      some P.teacher_id ∧
    ∀ Q : ClassPeriod, Q.teacher_id ≠ P.teacher_id →
      resolve_target_teacher rdb student (some tok) choice true ≠
        some Q.teacher_id := by
  have hmain : resolve_target_teacher rdb student (some tok) choice true =
      some P.teacher_id := by
    unfold resolve_target_teacher
    simp [hk, hcp, hP, hPid, hT, pyTruthyId, bne_iff_ne]
  refine ⟨hmain, fun Q hQ hcon => hQ ?_⟩
  rw [hmain] at hcon
  exact (Option.some.injEq _ _).mp hcon.symm

/-- Closed instance of kiosk_period_precedence on c9Db. -/
theorem kiosk_period_precedence_witness :
    resolve_target_teacher c9Db 5 (some "tok1") (some 2) true = some 10 :=
  (kiosk_period_precedence c9Db 5 "tok1" (some 2) ⟨"tok1", some 1, none, 1⟩
    ⟨1, 10, none, none, none, 1⟩ rfl rfl (by decide) (by decide) rfl).1

end HallPass
